import Mathlib

/-!
# PRGsheet reconciliation core — shallow embedding

A shallow embedding of the key-based reconciliation and incremental-merge
logic of the PRGsheet repository, together with proofs of the spec's
claims about it.

Tables are modelled as ordered lists of records; a record is an ordered
association list from column name to scalar value, every scalar rendered
as a string (the scripts coerce key columns to `str` before keying, and
the claims under study only compare values for equality).  Numeric
derived columns (`Stok.py`) are modelled over `ℤ` and `ℚ`.

Sources embedded here:
* `SSH.py` — `SshManager.verileri_birlestir` (incremental upsert merger);
* `Stok.py` — `stok_verilerini_duzenle_ve_kaydet` (zero-floored balances
  `Fazla`/`Ver`, chained `how='left'` merges, fixed-width SAP-code key);
* `Irsaliye.py` — `merge_and_analyze_differences` (full outer join on `Esle`);
* `BekleyenFast.py` — `_process_data` (zero-strip key rule),
  `_filter_new_records` and `save_to_sheets` (incremental sync variant).
-/

namespace PRGsheet

/-- A record: an ordered mapping from column name to a scalar value.
All scalars are carried as strings. -/
abbrev Record := List (String × String)

/-- Read a column of a record; an absent column reads as the empty
string (models a missing / NaN cell and `dict.get(col, '')`). -/
def getCol (r : Record) (c : String) : String :=
  match r.find? (fun p => p.1 == c) with
  | some p => p.2
  | none => ""

/-- Write a column of a record: replace the first entry with that name,
or append a fresh entry when the column is absent (models pandas column
assignment `df[c] = v` observed row-wise). -/
def setCol (r : Record) (c v : String) : Record :=
  match r with
  | [] => [(c, v)]
  | p :: rest => if p.1 == c then (c, v) :: rest else p :: setCol rest c v

/-- A data frame: a column schema plus an ordered list of rows. -/
structure DF where
  cols : List String
  rows : List Record

/-- Python `str.strip()`: drop leading and trailing whitespace. -/
def pyStrip (s : String) : String :=
  ⟨((s.data.dropWhile Char.isWhitespace).reverse.dropWhile Char.isWhitespace).reverse⟩

/-- Structural lexicographic `≤` on character lists (the order used to
model pandas `sort_values` on a string column). -/
def lexLe : List Char → List Char → Bool
  | [], _ => true
  | _ :: _, [] => false
  | a :: as, b :: bs => if a = b then lexLe as bs else decide (a < b)

/-! ## SSH.py — `SshManager.verileri_birlestir` -/

/-- `anahtar_sutunlar`: the four key columns of the SSH merge
(`SSH.py`). -/
def anahtar_sutunlar : List String :=
  ["Servis Bakım ID", "Yedek Parça Sipariş No", "Ürün ID", "Yedek Parça Ürün ID"]

/-- The carried-forward column of the SSH merge. -/
def parca_durumu : String := "Parça Durumu"

/-- `_birlestirme_anahtari`: the composite merge key — the four key-column
values concatenated with no separator (`''.join(x)` in `SSH.py`). -/
def birlestirme_anahtari (r : Record) : String :=
  String.join (anahtar_sutunlar.map (fun c => getCol r c))

/-- The in-place normalisation `df[sutun] = df[sutun].astype(str).str.strip()`
applied to each key column of a row (`SSH.py`). -/
def anahtarlari_temizle (r : Record) : Record :=
  anahtar_sutunlar.foldl (fun acc c => setCol acc c (pyStrip (getCol acc c))) r

/-- The composite key of a raw row as the code computes it: key columns
stripped first, then concatenated. -/
def satir_anahtari (r : Record) : String :=
  birlestirme_anahtari (anahtarlari_temizle r)

/-- The reordering part of
`sort_values(by='Servis Bakım ID', ascending=False)`: sort rows by that
column, descending.  Total on rows; `servis_bakim_sirala_opt` below adds
the `KeyError` pandas raises when the frame lacks the column. -/
def servis_bakim_sirala (rows : List Record) : List Record :=
  rows.insertionSort
    (fun a b => lexLe (getCol b "Servis Bakım ID").data (getCol a "Servis Bakım ID").data = true)

/-- The `Parça Durumu` carry of the Update branch: when both sides have
the column, overwrite it with the value of the first old row whose
composite key matches (`mevcut_kayit['Parça Durumu'].values[0]`). -/
def parca_durumu_tasi (pd_var : Bool) (mevcut : List Record) (r : Record) : Record :=
  if pd_var then
    match mevcut.find? (fun m => birlestirme_anahtari m == birlestirme_anahtari r) with
    | some m => setCol r parca_durumu (getCol m parca_durumu)
    | none => r
  else r

/-- The Update partition of `verileri_birlestir`: new rows whose key also
occurs in the old table, with `Parça Durumu` overwritten from the first
matching old row (when both sides have that column). -/
def guncellenen_kayitlar (yeni_df mevcut_df : DF) : List Record :=
  let yeni := yeni_df.rows.map anahtarlari_temizle
  let mevcut := mevcut_df.rows.map anahtarlari_temizle
  let mevcut_anahtarlar := mevcut.map birlestirme_anahtari
  (yeni.filter (fun r => mevcut_anahtarlar.contains (birlestirme_anahtari r))).map
    (parca_durumu_tasi
      (mevcut_df.cols.contains parca_durumu && yeni_df.cols.contains parca_durumu) mevcut)

/-- The Insert partition of `verileri_birlestir`: new rows whose key does
not occur in the old table. -/
def eklenen_kayitlar (yeni_df mevcut_df : DF) : List Record :=
  let yeni := yeni_df.rows.map anahtarlari_temizle
  let mevcut := mevcut_df.rows.map anahtarlari_temizle
  let mevcut_anahtarlar := mevcut.map birlestirme_anahtari
  yeni.filter (fun r => !mevcut_anahtarlar.contains (birlestirme_anahtari r))

/-- The Retain partition of `verileri_birlestir`: old rows whose key does
not occur in the new table. -/
def saklanan_kayitlar (yeni_df mevcut_df : DF) : List Record :=
  let yeni := yeni_df.rows.map anahtarlari_temizle
  let mevcut := mevcut_df.rows.map anahtarlari_temizle
  let yeni_anahtarlar := yeni.map birlestirme_anahtari
  mevcut.filter (fun r => !yeni_anahtarlar.contains (birlestirme_anahtari r))

/-- `SshManager.verileri_birlestir` (`SSH.py`): merge the freshly fetched
table into the persisted table, carrying `Parça Durumu` forward.  Returns
the new table sorted when the old table is empty or a key column is
missing on either side; otherwise concatenates the Update, Insert and
Retain partitions and sorts by `Servis Bakım ID` descending. -/
def verileri_birlestir (yeni_df mevcut_df : DF) : DF :=
  if mevcut_df.rows.isEmpty then
    { yeni_df with rows := servis_bakim_sirala yeni_df.rows }
  else if anahtar_sutunlar.all
      (fun c => yeni_df.cols.contains c && mevcut_df.cols.contains c) then
    let son := guncellenen_kayitlar yeni_df mevcut_df ++ eklenen_kayitlar yeni_df mevcut_df
      ++ saklanan_kayitlar yeni_df mevcut_df
    let rows := if son.isEmpty then yeni_df.rows.map anahtarlari_temizle else son
    { cols := yeni_df.cols ++ mevcut_df.cols.filter (fun c => !yeni_df.cols.contains c),
      rows := servis_bakim_sirala rows }
  else
    { yeni_df with rows := servis_bakim_sirala yeni_df.rows }

/-- `df.sort_values(by='Servis Bakım ID', ascending=False)` as pandas
executes it: raises `KeyError` — modelled as `none` — when the frame
does not have a `Servis Bakım ID` column. -/
def servis_bakim_sirala_opt (df : DF) : Option DF :=
  if df.cols.contains "Servis Bakım ID" then
    some { df with rows := servis_bakim_sirala df.rows }
  else none

/-- `SshManager.verileri_birlestir` with the fallibility of its
`sort_values` calls made explicit: the two fallback returns
(`SSH.py:250/258`) sit outside the `try` block, so when the new table
lacks the `Servis Bakım ID` sort column their `KeyError` escapes the
function — modelled as `none`.  (In the main branch the column is
guaranteed by the key-column check, so that sort cannot raise.) -/
def verileri_birlestir_opt (yeni_df mevcut_df : DF) : Option DF :=
  if mevcut_df.rows.isEmpty then
    servis_bakim_sirala_opt yeni_df
  else if anahtar_sutunlar.all
      (fun c => yeni_df.cols.contains c && mevcut_df.cols.contains c) then
    servis_bakim_sirala_opt
      { cols := yeni_df.cols ++ mevcut_df.cols.filter (fun c => !yeni_df.cols.contains c),
        rows :=
          if (guncellenen_kayitlar yeni_df mevcut_df ++ eklenen_kayitlar yeni_df mevcut_df
              ++ saklanan_kayitlar yeni_df mevcut_df).isEmpty
          then yeni_df.rows.map anahtarlari_temizle
          else guncellenen_kayitlar yeni_df mevcut_df ++ eklenen_kayitlar yeni_df mevcut_df
            ++ saklanan_kayitlar yeni_df mevcut_df }
  else
    servis_bakim_sirala_opt yeni_df

/-! ## Irsaliye.py — full outer join on `Esle` -/

/-- pandas `pd.merge(A, B, on=k, how='left')` as chained in
`stok_verilerini_duzenle_ve_kaydet` (`Stok.py:767-781`): every row of `A`
is kept — matched against the rows of `B` sharing its key, or passing
through alone (so `B`'s columns read as empty on it) — while a row of `B`
with no match in `A` is dropped. -/
def left_join (a_rows b_rows : List Record) (k : String) : List Record :=
  a_rows.flatMap (fun a =>
    if (b_rows.filter (fun b => getCol b k == getCol a k)).isEmpty then [a]
    else (b_rows.filter (fun b => getCol b k == getCol a k)).map
      (fun b => a ++ b.filter (fun p => p.1 != k)))

/-- pandas `pd.merge(A, B, on=k, how="outer")` as used in
`merge_and_analyze_differences` (`Irsaliye.py`): the left-join rows
(every row of `A`, matched or passing through alone), then the rows of
`B` with no match in `A` appended. -/
def outer_join (a_rows b_rows : List Record) (k : String) : List Record :=
  left_join a_rows b_rows k
  ++ b_rows.filter (fun b => !(a_rows.any (fun a => getCol a k == getCol b k)))

/-- The merge step of `merge_and_analyze_differences` (`Irsaliye.py`):
outer-join the ProSAP and Mikro tables on the shared `Esle` business key. -/
def esle_birlestir (prosap mikro : List Record) : List Record :=
  outer_join prosap mikro "Esle"

/-! ## Stok.py — derived columns of the merged stock table -/

/-- The `Fazla` column (`Stok.py`): `DEPO + Bekleyen + Plan - Borç`,
kept only when positive (`.where(fazla_hesaplama > 0, 0)`). -/
def fazla_sutunu (depo bekleyen plan borc : ℤ) : ℤ :=
  let h := depo + bekleyen + plan - borc
  if h > 0 then h else 0

/-- The `Ver` column (`Stok.py`): `Borç - DEPO - Bekleyen - Plan`,
kept only when positive. -/
def ver_sutunu (depo bekleyen plan borc : ℤ) : ℤ :=
  let h := borc - depo - bekleyen - plan
  if h > 0 then h else 0

/-- `merged_df['Malzeme Kodu'].astype(str).str[:10]` (`Stok.py`): the
fixed-width-10 SAP-code key rule. -/
def sap_kodu (s : String) : String := ⟨s.data.take 10⟩

/-! ## BekleyenFast.py — zero-strip key rule and incremental sync -/

/-- `.str.lstrip('0')` (`BekleyenFast.py`): drop leading `'0'`
characters. -/
def lstrip_zeros (s : String) : String := ⟨s.data.dropWhile (· == '0')⟩

/-- `.str.zfill(w)`: left-pad with `'0'` up to width `w` (only used at
width 1, where Python's sign special-case cannot arise). -/
def zfill (s : String) (w : Nat) : String :=
  if w ≤ s.length then s else ⟨List.replicate (w - s.length) '0' ++ s.data⟩

/-- The zero-strip key rule of `_process_data` (`BekleyenFast.py`):
`lstrip('0')` then `zfill(1)`, so at least one character always
remains. -/
def malzeme_anahtari (s : String) : String := zfill (lstrip_zeros s) 1

/-- The `BagKoduBekleyen` key of a processed order
(`str(order.get('BagKoduBekleyen', ''))`). -/
def bag_kodu (r : Record) : String := getCol r "BagKoduBekleyen"

/-- `_filter_new_records` (`BekleyenFast.py`): keep only the processed
orders whose `BagKoduBekleyen` is not among the existing codes; when
either input is empty, return the processed orders unchanged. -/
def filter_new_records (processed : List Record) (existing : List String) : List Record :=
  if processed.isEmpty || existing.isEmpty then processed
  else processed.filter (fun r => !(existing.contains (bag_kodu r)))

/-- `_get_existing_data` (`BekleyenFast.py`): the `BagKoduBekleyen`
column of the persisted table (membership models the Python set). -/
def mevcut_kodlar (old : List Record) : List String := old.map bag_kodu

/-- The persisted-table effect of `save_to_sheets` (`BekleyenFast.py`):
filter the processed orders against the existing codes and append only
the survivors to the persisted rows (`worksheet.append_rows`). -/
def save_to_sheets (old processed : List Record) : List Record :=
  old ++ filter_new_records processed (mevcut_kodlar old)

/-! ## Concrete example tables (used to instantiate the theorems) -/

/-- A small freshly-fetched SSH table with two rows. -/
def ornek_yeni : DF :=
  { cols := anahtar_sutunlar ++ [parca_durumu],
    rows :=
      [[("Servis Bakım ID", "1"), ("Yedek Parça Sipariş No", "b"), ("Ürün ID", "c"),
        ("Yedek Parça Ürün ID", "d"), ("Parça Durumu", "")],
       [("Servis Bakım ID", "2"), ("Yedek Parça Sipariş No", "x"), ("Ürün ID", "y"),
        ("Yedek Parça Ürün ID", "z"), ("Parça Durumu", "")]] }

/-- A small persisted SSH table: one row matching `ornek_yeni`'s first key
(with an operator-entered `Parça Durumu`) and one row with a stale key. -/
def ornek_mevcut : DF :=
  { cols := anahtar_sutunlar ++ [parca_durumu],
    rows :=
      [[("Servis Bakım ID", "1"), ("Yedek Parça Sipariş No", "b"), ("Ürün ID", "c"),
        ("Yedek Parça Ürün ID", "d"), ("Parça Durumu", "tamam")],
       [("Servis Bakım ID", "9"), ("Yedek Parça Sipariş No", "q"), ("Ürün ID", "r"),
        ("Yedek Parça Ürün ID", "s"), ("Parça Durumu", "eski")]] }

/-- A table missing every SSH key column. -/
def ornek_eksik : DF :=
  { cols := ["Tarih"], rows := [[("Tarih", "2024-01-01")]] }

/-! ## Helper lemmas on records -/

theorem contains_true_iff (l : List String) (a : String) : (l.contains a = true) ↔ a ∈ l := by
  simp

theorem contains_false_iff (l : List String) (a : String) : (l.contains a = false) ↔ a ∉ l := by
  simp

theorem getCol_setCol_self (r : Record) (c v : String) : getCol (setCol r c v) c = v := by
  induction r with
  | nil => simp [setCol, getCol]
  | cons p rest ih =>
    by_cases h : p.1 = c
    · simp [setCol, getCol, h]
    · simpa [setCol, getCol, h] using ih

theorem getCol_setCol_ne (r : Record) {c c' : String} (v : String) (h : c' ≠ c) :
    getCol (setCol r c v) c' = getCol r c' := by
  induction r with
  | nil => simp [setCol, getCol, h, Ne.symm h]
  | cons p rest ih =>
    by_cases hp : p.1 = c
    · subst hp
      simp [setCol, getCol, h, Ne.symm h]
    · by_cases hp' : p.1 = c'
      · simp [setCol, getCol, hp, hp', h, Ne.symm h]
      · simpa [setCol, getCol, hp, hp', h, Ne.symm h] using ih

theorem getCol_temizle (r : Record) {c : String} (h : c ∉ anahtar_sutunlar) :
    getCol (anahtarlari_temizle r) c = getCol r c := by
  simp only [anahtar_sutunlar, List.mem_cons, List.not_mem_nil, or_false, not_or] at h
  obtain ⟨h1, h2, h3, h4⟩ := h
  simp only [anahtarlari_temizle, anahtar_sutunlar, List.foldl_cons, List.foldl_nil]
  rw [getCol_setCol_ne _ _ h4, getCol_setCol_ne _ _ h3, getCol_setCol_ne _ _ h2,
    getCol_setCol_ne _ _ h1]

theorem anahtari_setCol_parca (r : Record) (v : String) :
    birlestirme_anahtari (setCol r parca_durumu v) = birlestirme_anahtari r := by
  simp only [birlestirme_anahtari, anahtar_sutunlar, List.map_cons, List.map_nil]
  rw [getCol_setCol_ne _ _ (by decide), getCol_setCol_ne _ _ (by decide),
    getCol_setCol_ne _ _ (by decide), getCol_setCol_ne _ _ (by decide)]

theorem anahtari_parca_tasi (b : Bool) (mevcut : List Record) (r : Record) :
    birlestirme_anahtari (parca_durumu_tasi b mevcut r) = birlestirme_anahtari r := by
  unfold parca_durumu_tasi
  cases b with
  | false => rfl
  | true =>
    cases mevcut.find? (fun m => birlestirme_anahtari m == birlestirme_anahtari r) with
    | none => rfl
    | some m => simpa using anahtari_setCol_parca r (getCol m parca_durumu)

theorem map_filter_comp {α β : Type} (f : α → β) (p : β → Bool) (l : List α) :
    (l.filter (fun a => p (f a))).map f = (l.map f).filter p := by
  induction l with
  | nil => rfl
  | cons a rest ih =>
    by_cases h : p (f a)
    · simp [h, ih]
    · simp [h, ih]

theorem temizle_map_key (rows : List Record) :
    (rows.map anahtarlari_temizle).map birlestirme_anahtari = rows.map satir_anahtari := by
  rw [List.map_map]
  rfl

theorem guncellenen_map_key (yeni_df mevcut_df : DF) :
    (guncellenen_kayitlar yeni_df mevcut_df).map birlestirme_anahtari =
      (yeni_df.rows.map satir_anahtari).filter
        (fun k => (mevcut_df.rows.map satir_anahtari).contains k) := by
  unfold guncellenen_kayitlar
  rw [List.map_map]
  have h1 : (birlestirme_anahtari ∘ parca_durumu_tasi
      (mevcut_df.cols.contains parca_durumu && yeni_df.cols.contains parca_durumu)
      (mevcut_df.rows.map anahtarlari_temizle)) = birlestirme_anahtari :=
    funext (fun r => anahtari_parca_tasi _ _ r)
  rw [h1, map_filter_comp birlestirme_anahtari
      (fun k => ((mevcut_df.rows.map anahtarlari_temizle).map birlestirme_anahtari).contains k)]
  simp only [temizle_map_key]

theorem eklenen_map_key (yeni_df mevcut_df : DF) :
    (eklenen_kayitlar yeni_df mevcut_df).map birlestirme_anahtari =
      (yeni_df.rows.map satir_anahtari).filter
        (fun k => !(mevcut_df.rows.map satir_anahtari).contains k) := by
  unfold eklenen_kayitlar
  rw [map_filter_comp birlestirme_anahtari
      (fun k => !((mevcut_df.rows.map anahtarlari_temizle).map birlestirme_anahtari).contains k)]
  simp only [temizle_map_key]

theorem saklanan_map_key (yeni_df mevcut_df : DF) :
    (saklanan_kayitlar yeni_df mevcut_df).map birlestirme_anahtari =
      (mevcut_df.rows.map satir_anahtari).filter
        (fun k => !(yeni_df.rows.map satir_anahtari).contains k) := by
  unfold saklanan_kayitlar
  rw [map_filter_comp birlestirme_anahtari
      (fun k => !((yeni_df.rows.map anahtarlari_temizle).map birlestirme_anahtari).contains k)]
  simp only [temizle_map_key]

theorem birlestir_parcalar_ne_nil (yeni_df mevcut_df : DF) (hm : mevcut_df.rows ≠ []) :
    guncellenen_kayitlar yeni_df mevcut_df ++ eklenen_kayitlar yeni_df mevcut_df
      ++ saklanan_kayitlar yeni_df mevcut_df ≠ [] := by
  obtain ⟨m0, hm0⟩ := List.exists_mem_of_ne_nil _ hm
  by_cases hk : satir_anahtari m0 ∈ yeni_df.rows.map satir_anahtari
  · obtain ⟨y0, hy0, hky0⟩ := List.mem_map.mp hk
    have hmem : satir_anahtari y0 ∈ (guncellenen_kayitlar yeni_df mevcut_df).map
        birlestirme_anahtari := by
      rw [guncellenen_map_key, List.mem_filter]
      refine ⟨List.mem_map_of_mem _ hy0, ?_⟩
      simp only [hky0]
      simp [List.mem_map_of_mem satir_anahtari hm0]
    obtain ⟨g0, hg0, -⟩ := List.mem_map.mp hmem
    exact List.ne_nil_of_mem (List.mem_append_left _ (List.mem_append_left _ hg0))
  · have hmem : anahtarlari_temizle m0 ∈ saklanan_kayitlar yeni_df mevcut_df := by
      unfold saklanan_kayitlar
      rw [List.mem_filter]
      refine ⟨List.mem_map_of_mem _ hm0, ?_⟩
      rw [temizle_map_key]
      simpa [satir_anahtari] using hk
    exact List.ne_nil_of_mem (List.mem_append_right _ hmem)

theorem birlestir_ana (yeni_df mevcut_df : DF) (hm : mevcut_df.rows ≠ [])
    (hcols : ∀ c ∈ anahtar_sutunlar, c ∈ yeni_df.cols ∧ c ∈ mevcut_df.cols) :
    (verileri_birlestir yeni_df mevcut_df).rows.Perm
      (guncellenen_kayitlar yeni_df mevcut_df ++ eklenen_kayitlar yeni_df mevcut_df
        ++ saklanan_kayitlar yeni_df mevcut_df) := by
  have hc : anahtar_sutunlar.all
      (fun c => yeni_df.cols.contains c && mevcut_df.cols.contains c) = true := by
    rw [List.all_eq_true]
    intro c hc
    simp [(hcols c hc).1, (hcols c hc).2]
  unfold verileri_birlestir
  rw [if_neg (by simp [hm]), if_pos hc]
  simp only
  rw [if_neg (fun hh => birlestir_parcalar_ne_nil yeni_df mevcut_df hm (List.isEmpty_iff.mp hh))]
  exact List.perm_insertionSort _ _

theorem birlestir_opt_agrees (yeni_df mevcut_df : DF)
    (h : "Servis Bakım ID" ∈ yeni_df.cols) :
    verileri_birlestir_opt yeni_df mevcut_df = some (verileri_birlestir yeni_df mevcut_df) := by
  unfold verileri_birlestir_opt verileri_birlestir servis_bakim_sirala_opt
  by_cases h1 : mevcut_df.rows.isEmpty
  · rw [if_pos h1, if_pos h1, if_pos (by simp [h])]
  · rw [if_neg h1, if_neg h1]
    by_cases h2 : anahtar_sutunlar.all
        (fun c => yeni_df.cols.contains c && mevcut_df.cols.contains c) = true
    · rw [if_pos h2, if_pos h2, if_pos (by simp [h])]
    · rw [if_neg h2, if_neg h2, if_pos (by simp [h])]

theorem find_key_nodup (M : List Record) (hnd : (M.map birlestirme_anahtari).Nodup)
    (m0 : Record) (hm0 : m0 ∈ M) :
    M.find? (fun m => birlestirme_anahtari m == birlestirme_anahtari m0) = some m0 := by
  cases hfind : M.find? (fun m => birlestirme_anahtari m == birlestirme_anahtari m0) with
  | none =>
    exact absurd (by simp : (birlestirme_anahtari m0 == birlestirme_anahtari m0) = true)
      (by simpa using List.find?_eq_none.mp hfind m0 hm0)
  | some m =>
    have h1 : birlestirme_anahtari m = birlestirme_anahtari m0 := by
      simpa using List.find?_some hfind
    have h2 : m ∈ M := List.mem_of_find?_eq_some hfind
    rw [List.inj_on_of_nodup_map hnd h2 hm0 h1]

theorem getCol_no_entry (r : Record) (c : String) (h : ∀ p ∈ r, p.1 ≠ c) :
    getCol r c = "" := by
  unfold getCol
  rw [List.find?_eq_none.mpr (fun p hp => by simpa using h p hp)]

theorem getCol_append_no_key (a b : Record) (k : String) (hb : ∀ p ∈ b, p.1 ≠ k) :
    getCol (a ++ b) k = getCol a k := by
  unfold getCol
  rw [List.find?_append,
    show List.find? (fun p => p.1 == k) b = none from
      List.find?_eq_none.mpr (fun p hp => by simpa using hb p hp),
    Option.or_none]

theorem join_row_key (a b : Record) (k : String) :
    getCol (a ++ b.filter (fun p => p.1 != k)) k = getCol a k :=
  getCol_append_no_key _ _ _ (fun p hp => by simpa using (List.mem_filter.mp hp).2)

theorem any_key_contains (A : List Record) (k v : String) :
    A.any (fun a => getCol a k == v) = (A.map (fun r => getCol r k)).contains v := by
  rw [Bool.eq_iff_iff]
  constructor
  · intro h
    obtain ⟨a, ha, he⟩ := List.any_eq_true.mp h
    rw [contains_true_iff]
    exact List.mem_map.mpr ⟨a, ha, by simpa using he⟩
  · intro h
    obtain ⟨a, ha, he⟩ := List.mem_map.mp (contains_true_iff _ _ |>.mp h)
    exact List.any_eq_true.mpr ⟨a, ha, by simp [he]⟩

theorem eslesen_singleton (B : List Record) (k : String)
    (hbnd : (B.map (fun r => getCol r k)).Nodup) (kv : String)
    (hne : ¬ (B.filter (fun b => getCol b k == kv)).isEmpty = true) :
    ∃ b0, B.filter (fun b => getCol b k == kv) = [b0] := by
  have hkeys : (B.filter (fun b => getCol b k == kv)).map (fun r => getCol r k) =
      (B.map (fun r => getCol r k)).filter (fun v => v == kv) :=
    map_filter_comp (fun r => getCol r k) (fun v => v == kv) B
  have hnd : ((B.filter (fun b => getCol b k == kv)).map (fun r => getCol r k)).Nodup := by
    rw [hkeys]; exact hbnd.filter _
  have hall : ∀ v ∈ (B.filter (fun b => getCol b k == kv)).map (fun r => getCol r k),
      v = kv := by
    intro v hv
    rw [hkeys, List.mem_filter] at hv
    simpa using hv.2
  have hrep := List.eq_replicate_of_mem hall
  have h1 : (B.filter (fun b => getCol b k == kv)).length ≤ 1 := by
    rw [hrep, List.nodup_replicate, List.length_map] at hnd
    exact hnd
  have h4 : 0 < (B.filter (fun b => getCol b k == kv)).length :=
    List.length_pos.mpr (by simpa [List.isEmpty_iff] using hne)
  exact List.length_eq_one.mp (le_antisymm h1 h4)

theorem left_row_keys (B : List Record) (k : String)
    (hbnd : (B.map (fun r => getCol r k)).Nodup) (a : Record) :
    ((if (B.filter (fun b => getCol b k == getCol a k)).isEmpty then [a]
      else (B.filter (fun b => getCol b k == getCol a k)).map
        (fun b => a ++ b.filter (fun p => p.1 != k))).map (fun r => getCol r k)) =
      [getCol a k] := by
  by_cases hes : (B.filter (fun b => getCol b k == getCol a k)).isEmpty
  · rw [if_pos hes]
    rfl
  · rw [if_neg hes]
    obtain ⟨b0, hb0⟩ := eslesen_singleton B k hbnd (getCol a k) hes
    rw [hb0]
    simp [join_row_key]

theorem left_join_map_key (A B : List Record) (k : String)
    (hbnd : (B.map (fun r => getCol r k)).Nodup) :
    (left_join A B k).map (fun r => getCol r k) = A.map (fun r => getCol r k) := by
  unfold left_join
  induction A with
  | nil => rfl
  | cons a A' ih =>
    rw [List.flatMap_cons, List.map_append, left_row_keys B k hbnd a, ih, List.map_cons]
    rfl

theorem outer_join_map_key (A B : List Record) (k : String)
    (hbnd : (B.map (fun r => getCol r k)).Nodup) :
    (outer_join A B k).map (fun r => getCol r k) =
      A.map (fun r => getCol r k) ++
        (B.map (fun r => getCol r k)).filter
          (fun v => !(A.map (fun r => getCol r k)).contains v) := by
  unfold outer_join
  rw [List.map_append, left_join_map_key A B k hbnd]
  congr 1
  rw [show (fun b => !(A.any (fun a => getCol a k == getCol b k))) =
      (fun b => !(A.map (fun r => getCol r k)).contains (getCol b k)) from
    funext (fun b => by rw [any_key_contains])]
  exact map_filter_comp (fun r => getCol r k)
    (fun v => !(A.map (fun r => getCol r k)).contains v) B

/-! ## Claim theorems -/

/-- C1: for an old table and a new table that both contain the four key
columns, with the old table non-empty and each composite key occurring at
most once per side, the output of `verileri_birlestir` has composite-key
set equal to the union of the two key sets, each output key occurs
exactly once, and the Update/Insert/Retain partitions it is built from
have pairwise disjoint key sets. -/
theorem upsert_partition_exhaustive (yeni_df mevcut_df : DF)
    (hm : mevcut_df.rows ≠ [])
    (hcols : ∀ c ∈ anahtar_sutunlar, c ∈ yeni_df.cols ∧ c ∈ mevcut_df.cols)
    (hNnd : (yeni_df.rows.map satir_anahtari).Nodup)
    (hMnd : (mevcut_df.rows.map satir_anahtari).Nodup) :
    ((verileri_birlestir yeni_df mevcut_df).rows.map birlestirme_anahtari).Nodup ∧
    (∀ k, k ∈ (verileri_birlestir yeni_df mevcut_df).rows.map birlestirme_anahtari ↔
      k ∈ yeni_df.rows.map satir_anahtari ∨ k ∈ mevcut_df.rows.map satir_anahtari) ∧
    (∀ k, k ∈ (guncellenen_kayitlar yeni_df mevcut_df).map birlestirme_anahtari →
      k ∉ (eklenen_kayitlar yeni_df mevcut_df).map birlestirme_anahtari) ∧
    (∀ k, k ∈ (guncellenen_kayitlar yeni_df mevcut_df).map birlestirme_anahtari →
      k ∉ (saklanan_kayitlar yeni_df mevcut_df).map birlestirme_anahtari) ∧
    (∀ k, k ∈ (eklenen_kayitlar yeni_df mevcut_df).map birlestirme_anahtari →
      k ∉ (saklanan_kayitlar yeni_df mevcut_df).map birlestirme_anahtari) := by
  have hperm := (birlestir_ana yeni_df mevcut_df hm hcols).map birlestirme_anahtari
  rw [List.map_append, List.map_append, guncellenen_map_key, eklenen_map_key,
    saklanan_map_key] at hperm
  refine ⟨?_, ?_, ?_, ?_, ?_⟩
  · rw [hperm.nodup_iff]
    refine List.Nodup.append (List.Nodup.append (hNnd.filter _) (hNnd.filter _) ?_)
      ((hMnd.filter _) ) ?_
    · intro a ha hb
      rw [List.mem_filter] at ha hb
      rw [ha.2] at hb
      exact absurd hb.2 (by simp)
    · intro a ha hb
      rw [List.mem_append, List.mem_filter, List.mem_filter] at ha
      rw [List.mem_filter, Bool.not_eq_true', contains_false_iff] at hb
      rcases ha with ha | ha
      · exact hb.2 ha.1
      · exact hb.2 ha.1
  · intro k
    rw [hperm.mem_iff]
    simp only [List.mem_append, List.mem_filter, Bool.not_eq_true', contains_true_iff,
      contains_false_iff]
    by_cases h1 : k ∈ yeni_df.rows.map satir_anahtari <;>
      by_cases h2 : k ∈ mevcut_df.rows.map satir_anahtari <;> tauto
  · intro k hk hk'
    rw [guncellenen_map_key, List.mem_filter, contains_true_iff] at hk
    rw [eklenen_map_key, List.mem_filter, Bool.not_eq_true', contains_false_iff] at hk'
    exact hk'.2 hk.2
  · intro k hk hk'
    rw [guncellenen_map_key, List.mem_filter] at hk
    rw [saklanan_map_key, List.mem_filter, Bool.not_eq_true', contains_false_iff] at hk'
    exact hk'.2 hk.1
  · intro k hk hk'
    rw [eklenen_map_key, List.mem_filter] at hk
    rw [saklanan_map_key, List.mem_filter, Bool.not_eq_true', contains_false_iff] at hk'
    exact hk'.2 hk.1

/-- Witness for C1 at the concrete example tables. -/
theorem upsert_partition_exhaustive_witness :
    (ornek_mevcut.rows ≠ [] ∧
      (∀ c ∈ anahtar_sutunlar, c ∈ ornek_yeni.cols ∧ c ∈ ornek_mevcut.cols) ∧
      (ornek_yeni.rows.map satir_anahtari).Nodup ∧
      (ornek_mevcut.rows.map satir_anahtari).Nodup) ∧
    (((verileri_birlestir ornek_yeni ornek_mevcut).rows.map birlestirme_anahtari).Nodup ∧
    (∀ k, k ∈ (verileri_birlestir ornek_yeni ornek_mevcut).rows.map birlestirme_anahtari ↔
      k ∈ ornek_yeni.rows.map satir_anahtari ∨ k ∈ ornek_mevcut.rows.map satir_anahtari) ∧
    (∀ k, k ∈ (guncellenen_kayitlar ornek_yeni ornek_mevcut).map birlestirme_anahtari →
      k ∉ (eklenen_kayitlar ornek_yeni ornek_mevcut).map birlestirme_anahtari) ∧
    (∀ k, k ∈ (guncellenen_kayitlar ornek_yeni ornek_mevcut).map birlestirme_anahtari →
      k ∉ (saklanan_kayitlar ornek_yeni ornek_mevcut).map birlestirme_anahtari) ∧
    (∀ k, k ∈ (eklenen_kayitlar ornek_yeni ornek_mevcut).map birlestirme_anahtari →
      k ∉ (saklanan_kayitlar ornek_yeni ornek_mevcut).map birlestirme_anahtari)) :=
  ⟨⟨by decide, by decide, by decide, by decide⟩,
    upsert_partition_exhaustive ornek_yeni ornek_mevcut (by decide) (by decide)
      (by decide) (by decide)⟩

/-- C2: for a key present in both sides (keys unique per side, key
columns present, the new row key-normalised), the merged record for that
key carries `Parça Durumu` from the old row and every other column from
the new row. -/
theorem carried_field_preserved (yeni_df mevcut_df : DF) (rN rO : Record)
    (hcols : ∀ c ∈ anahtar_sutunlar, c ∈ yeni_df.cols ∧ c ∈ mevcut_df.cols)
    (hpdY : parca_durumu ∈ yeni_df.cols) (hpdM : parca_durumu ∈ mevcut_df.cols)
    (hrN : rN ∈ yeni_df.rows) (hrO : rO ∈ mevcut_df.rows)
    (hk : satir_anahtari rN = satir_anahtari rO)
    (hNnd : (yeni_df.rows.map satir_anahtari).Nodup)
    (hMnd : (mevcut_df.rows.map satir_anahtari).Nodup)
    (hnorm : anahtarlari_temizle rN = rN) :
    (∃ r ∈ (verileri_birlestir yeni_df mevcut_df).rows,
        birlestirme_anahtari r = satir_anahtari rN) ∧
    ∀ r ∈ (verileri_birlestir yeni_df mevcut_df).rows,
      birlestirme_anahtari r = satir_anahtari rN →
        getCol r parca_durumu = getCol rO parca_durumu ∧
        ∀ c, c ≠ parca_durumu → getCol r c = getCol rN c := by
  have hm : mevcut_df.rows ≠ [] := List.ne_nil_of_mem hrO
  have hperm := birlestir_ana yeni_df mevcut_df hm hcols
  have hsat : satir_anahtari rN = birlestirme_anahtari rN := by
    rw [satir_anahtari, hnorm]
  have hMnd' : ((mevcut_df.rows.map anahtarlari_temizle).map birlestirme_anahtari).Nodup := by
    rw [temizle_map_key]; exact hMnd
  have hNnd' : ((yeni_df.rows.map anahtarlari_temizle).map birlestirme_anahtari).Nodup := by
    rw [temizle_map_key]; exact hNnd
  have htO : anahtarlari_temizle rO ∈ mevcut_df.rows.map anahtarlari_temizle :=
    List.mem_map_of_mem _ hrO
  have hrNY : rN ∈ yeni_df.rows.map anahtarlari_temizle :=
    hnorm ▸ List.mem_map_of_mem _ hrN
  have hkeq : birlestirme_anahtari rN = birlestirme_anahtari (anahtarlari_temizle rO) := by
    rw [← hsat, hk, satir_anahtari]
  have hfind : (mevcut_df.rows.map anahtarlari_temizle).find?
      (fun m => birlestirme_anahtari m == birlestirme_anahtari rN) =
      some (anahtarlari_temizle rO) := by
    rw [show (fun m => birlestirme_anahtari m == birlestirme_anahtari rN) =
        (fun m => birlestirme_anahtari m ==
          birlestirme_anahtari (anahtarlari_temizle rO)) from by rw [hkeq]]
    exact find_key_nodup _ hMnd' _ htO
  have hb : (mevcut_df.cols.contains parca_durumu && yeni_df.cols.contains parca_durumu)
      = true := by simp [hpdY, hpdM]
  have htasi : parca_durumu_tasi
      (mevcut_df.cols.contains parca_durumu && yeni_df.cols.contains parca_durumu)
      (mevcut_df.rows.map anahtarlari_temizle) rN =
      setCol rN parca_durumu (getCol (anahtarlari_temizle rO) parca_durumu) := by
    rw [parca_durumu_tasi, hb, if_pos rfl, hfind]
  have hcont : ((mevcut_df.rows.map anahtarlari_temizle).map birlestirme_anahtari).contains
      (birlestirme_anahtari rN) = true := by
    rw [contains_true_iff, hkeq]
    exact List.mem_map_of_mem _ htO
  have hrNfil : rN ∈ (yeni_df.rows.map anahtarlari_temizle).filter
      (fun r => ((mevcut_df.rows.map anahtarlari_temizle).map birlestirme_anahtari).contains
        (birlestirme_anahtari r)) :=
    List.mem_filter.mpr ⟨hrNY, hcont⟩
  have hupd : setCol rN parca_durumu (getCol (anahtarlari_temizle rO) parca_durumu) ∈
      guncellenen_kayitlar yeni_df mevcut_df := by
    unfold guncellenen_kayitlar
    exact htasi ▸ List.mem_map_of_mem _ hrNfil
  have hpdO : getCol (anahtarlari_temizle rO) parca_durumu = getCol rO parca_durumu :=
    getCol_temizle rO (by decide)
  constructor
  · refine ⟨setCol rN parca_durumu (getCol (anahtarlari_temizle rO) parca_durumu),
      hperm.mem_iff.mpr (List.mem_append_left _ (List.mem_append_left _ hupd)), ?_⟩
    rw [anahtari_setCol_parca, hsat]
  · intro r hr hkr
    rw [hperm.mem_iff, List.mem_append, List.mem_append] at hr
    rcases hr with (hr | hr) | hr
    · unfold guncellenen_kayitlar at hr
      obtain ⟨y0, hy0, hy0r⟩ := List.mem_map.mp hr
      have hky0 : birlestirme_anahtari y0 = birlestirme_anahtari rN := by
        rw [← anahtari_parca_tasi
          (mevcut_df.cols.contains parca_durumu && yeni_df.cols.contains parca_durumu)
          (mevcut_df.rows.map anahtarlari_temizle) y0, hy0r, hkr, hsat]
      have hy0N : y0 = rN :=
        List.inj_on_of_nodup_map hNnd' (List.mem_filter.mp hy0).1 hrNY hky0
      rw [← hy0r, hy0N, htasi]
      refine ⟨?_, ?_⟩
      · rw [getCol_setCol_self, hpdO]
      · intro c hc
        rw [getCol_setCol_ne _ _ hc]
    · unfold eklenen_kayitlar at hr
      have h2 := (List.mem_filter.mp hr).2
      rw [hkr, hsat, Bool.not_eq_true', contains_false_iff] at h2
      exact absurd (hkeq ▸ List.mem_map_of_mem birlestirme_anahtari htO) h2
    · unfold saklanan_kayitlar at hr
      have h2 := (List.mem_filter.mp hr).2
      rw [hkr, hsat, Bool.not_eq_true', contains_false_iff] at h2
      exact absurd (List.mem_map_of_mem birlestirme_anahtari hrNY) h2

/-- Witness for C2 at the concrete example tables: the row with
composite key `1bcd` carries the old `Parça Durumu` value `tamam`. -/
theorem carried_field_preserved_witness :
    ((∀ c ∈ anahtar_sutunlar, c ∈ ornek_yeni.cols ∧ c ∈ ornek_mevcut.cols) ∧
      parca_durumu ∈ ornek_yeni.cols ∧ parca_durumu ∈ ornek_mevcut.cols ∧
      [("Servis Bakım ID", "1"), ("Yedek Parça Sipariş No", "b"), ("Ürün ID", "c"),
        ("Yedek Parça Ürün ID", "d"), ("Parça Durumu", "")] ∈ ornek_yeni.rows ∧
      [("Servis Bakım ID", "1"), ("Yedek Parça Sipariş No", "b"), ("Ürün ID", "c"),
        ("Yedek Parça Ürün ID", "d"), ("Parça Durumu", "tamam")] ∈ ornek_mevcut.rows ∧
      satir_anahtari
        [("Servis Bakım ID", "1"), ("Yedek Parça Sipariş No", "b"), ("Ürün ID", "c"),
          ("Yedek Parça Ürün ID", "d"), ("Parça Durumu", "")] =
        satir_anahtari
          [("Servis Bakım ID", "1"), ("Yedek Parça Sipariş No", "b"), ("Ürün ID", "c"),
            ("Yedek Parça Ürün ID", "d"), ("Parça Durumu", "tamam")] ∧
      (ornek_yeni.rows.map satir_anahtari).Nodup ∧
      (ornek_mevcut.rows.map satir_anahtari).Nodup ∧
      anahtarlari_temizle
        [("Servis Bakım ID", "1"), ("Yedek Parça Sipariş No", "b"), ("Ürün ID", "c"),
          ("Yedek Parça Ürün ID", "d"), ("Parça Durumu", "")] =
        [("Servis Bakım ID", "1"), ("Yedek Parça Sipariş No", "b"), ("Ürün ID", "c"),
          ("Yedek Parça Ürün ID", "d"), ("Parça Durumu", "")]) ∧
    ((∃ r ∈ (verileri_birlestir ornek_yeni ornek_mevcut).rows,
        birlestirme_anahtari r = satir_anahtari
          [("Servis Bakım ID", "1"), ("Yedek Parça Sipariş No", "b"), ("Ürün ID", "c"),
            ("Yedek Parça Ürün ID", "d"), ("Parça Durumu", "")]) ∧
      ∀ r ∈ (verileri_birlestir ornek_yeni ornek_mevcut).rows,
        birlestirme_anahtari r = satir_anahtari
            [("Servis Bakım ID", "1"), ("Yedek Parça Sipariş No", "b"), ("Ürün ID", "c"),
              ("Yedek Parça Ürün ID", "d"), ("Parça Durumu", "")] →
          getCol r parca_durumu = getCol
            [("Servis Bakım ID", "1"), ("Yedek Parça Sipariş No", "b"), ("Ürün ID", "c"),
              ("Yedek Parça Ürün ID", "d"), ("Parça Durumu", "tamam")] parca_durumu ∧
          ∀ c, c ≠ parca_durumu → getCol r c = getCol
            [("Servis Bakım ID", "1"), ("Yedek Parça Sipariş No", "b"), ("Ürün ID", "c"),
              ("Yedek Parça Ürün ID", "d"), ("Parça Durumu", "")] c) :=
  ⟨⟨by decide, by decide, by decide, by decide, by decide, by decide, by decide, by decide,
      by decide⟩,
    carried_field_preserved ornek_yeni ornek_mevcut _ _ (by decide) (by decide) (by decide)
      (by decide) (by decide) (by decide) (by decide) (by decide) (by decide)⟩

/-- C3: a key-normalised old row whose key does not occur in the new
table is kept, byte for byte, in the merged output (the Retain partition
preserves historical rows instead of deleting them). -/
theorem retain_keeps_old_record (yeni_df mevcut_df : DF) (rO : Record)
    (hcols : ∀ c ∈ anahtar_sutunlar, c ∈ yeni_df.cols ∧ c ∈ mevcut_df.cols)
    (hrO : rO ∈ mevcut_df.rows)
    (hnorm : anahtarlari_temizle rO = rO)
    (hkey : birlestirme_anahtari rO ∉ yeni_df.rows.map satir_anahtari) :
    rO ∈ (verileri_birlestir yeni_df mevcut_df).rows := by
  have hm : mevcut_df.rows ≠ [] := List.ne_nil_of_mem hrO
  have hperm := birlestir_ana yeni_df mevcut_df hm hcols
  rw [hperm.mem_iff]
  apply List.mem_append_right
  unfold saklanan_kayitlar
  rw [List.mem_filter]
  refine ⟨hnorm ▸ List.mem_map_of_mem _ hrO, ?_⟩
  rw [temizle_map_key, Bool.not_eq_true', contains_false_iff]
  exact hkey

/-- Witness for C3 at the concrete example tables (the stale row with
composite key `9qrs`). -/
theorem retain_keeps_old_record_witness :
    ((∀ c ∈ anahtar_sutunlar, c ∈ ornek_yeni.cols ∧ c ∈ ornek_mevcut.cols) ∧
      [("Servis Bakım ID", "9"), ("Yedek Parça Sipariş No", "q"), ("Ürün ID", "r"),
        ("Yedek Parça Ürün ID", "s"), ("Parça Durumu", "eski")] ∈ ornek_mevcut.rows ∧
      anahtarlari_temizle
        [("Servis Bakım ID", "9"), ("Yedek Parça Sipariş No", "q"), ("Ürün ID", "r"),
          ("Yedek Parça Ürün ID", "s"), ("Parça Durumu", "eski")] =
        [("Servis Bakım ID", "9"), ("Yedek Parça Sipariş No", "q"), ("Ürün ID", "r"),
          ("Yedek Parça Ürün ID", "s"), ("Parça Durumu", "eski")] ∧
      birlestirme_anahtari
        [("Servis Bakım ID", "9"), ("Yedek Parça Sipariş No", "q"), ("Ürün ID", "r"),
          ("Yedek Parça Ürün ID", "s"), ("Parça Durumu", "eski")] ∉
        ornek_yeni.rows.map satir_anahtari) ∧
    [("Servis Bakım ID", "9"), ("Yedek Parça Sipariş No", "q"), ("Ürün ID", "r"),
      ("Yedek Parça Ürün ID", "s"), ("Parça Durumu", "eski")] ∈
      (verileri_birlestir ornek_yeni ornek_mevcut).rows :=
  ⟨⟨by decide, by decide, by decide, by decide⟩,
    retain_keeps_old_record ornek_yeni ornek_mevcut _ (by decide) (by decide) (by decide)
      (by decide)⟩

/-- C5 (code bug): the claimed no-raise fallback fails when the missing
key column is the sort column itself.  With a non-empty old table and a
new table lacking `Servis Bakım ID` (here every key column), the
key-column check routes to the fallback
`yeni_df.sort_values(by='Servis Bakım ID')` at `SSH.py:258`, which is
outside the `try` block and raises `KeyError` — the fallible embedding
returns `none` instead of the degraded insert-only merge the claim and
spec describe. -/
theorem missing_sort_column_raises :
    (∀ c ∈ anahtar_sutunlar, c ∉ ornek_eksik.cols) ∧
    ornek_mevcut.rows ≠ [] ∧
    verileri_birlestir_opt ornek_eksik ornek_mevcut = none :=
  ⟨by decide, by decide, rfl⟩

/-- C10: the composite key concatenates the four key fields with no
separator, so it is not injective: two records with different key-field
tuples (`('1','23','x','y')` and `('12','3','x','y')`) receive the same
composite key `"123xy"`, and `verileri_birlestir` therefore matches them
as the same entity — merging a one-row new table against a one-row old
table with these distinct tuples yields a single output row. -/
theorem composite_key_collision :
    birlestirme_anahtari
        [("Servis Bakım ID", "1"), ("Yedek Parça Sipariş No", "23"), ("Ürün ID", "x"),
          ("Yedek Parça Ürün ID", "y")] =
      birlestirme_anahtari
        [("Servis Bakım ID", "12"), ("Yedek Parça Sipariş No", "3"), ("Ürün ID", "x"),
          ("Yedek Parça Ürün ID", "y")] ∧
    getCol [("Servis Bakım ID", "1"), ("Yedek Parça Sipariş No", "23"), ("Ürün ID", "x"),
        ("Yedek Parça Ürün ID", "y")] "Servis Bakım ID" ≠
      getCol [("Servis Bakım ID", "12"), ("Yedek Parça Sipariş No", "3"), ("Ürün ID", "x"),
        ("Yedek Parça Ürün ID", "y")] "Servis Bakım ID" ∧
    (verileri_birlestir
        { cols := anahtar_sutunlar,
          rows := [[("Servis Bakım ID", "1"), ("Yedek Parça Sipariş No", "23"), ("Ürün ID", "x"),
            ("Yedek Parça Ürün ID", "y")]] }
        { cols := anahtar_sutunlar,
          rows := [[("Servis Bakım ID", "12"), ("Yedek Parça Sipariş No", "3"), ("Ürün ID", "x"),
            ("Yedek Parça Ürün ID", "y")]] }).rows.length = 1 := by
  decide

/-- C4 counterexample: the chained merges of `Stok.py:763-785` are
`how='left'` joins, not full outer joins — a key present only in the
right table (`"M2"`, a backorder row with no matching material) is in
A ∪ B but absent from the merged result, so the claimed
every-key-appears-exactly-once property is false of that cited code. -/
theorem left_join_drops_right_only_key :
    "M2" ∈ ([[("Malzeme Kodu", "M1"), ("DEPO", "5")]].map
        (fun r => getCol r "Malzeme Kodu")) ++
      ([[("Malzeme Kodu", "M2"), ("Bekleyen Adet", "3")]].map
        (fun r => getCol r "Malzeme Kodu")) ∧
    "M2" ∉ (left_join [[("Malzeme Kodu", "M1"), ("DEPO", "5")]]
        [[("Malzeme Kodu", "M2"), ("Bekleyen Adet", "3")]] "Malzeme Kodu").map
        (fun r => getCol r "Malzeme Kodu") := by
  decide

/-- C4 (amended): for the full outer join of `Irsaliye.py` (each
business key occurring at most once per side, as a key demands), every
key of either input appears exactly once and a row whose key matched
only one side passes through unchanged, so every column it does not
itself carry — in particular every column unique to the other side —
reads as empty; the chained merges of `Stok.py:763-785` are left joins
instead, whose key set is exactly the left table's, so a right-only key
is dropped there. -/
theorem outer_join_complete (A B : List Record) (k : String)
    (hand : (A.map (fun r => getCol r k)).Nodup)
    (hbnd : (B.map (fun r => getCol r k)).Nodup) :
    ((outer_join A B k).map (fun r => getCol r k)).Nodup ∧
    (∀ v, v ∈ (outer_join A B k).map (fun r => getCol r k) ↔
      v ∈ A.map (fun r => getCol r k) ∨ v ∈ B.map (fun r => getCol r k)) ∧
    (∀ a ∈ A, getCol a k ∉ B.map (fun r => getCol r k) →
      a ∈ outer_join A B k ∧ ∀ c, (∀ p ∈ a, p.1 ≠ c) → getCol a c = "") ∧
    (∀ b ∈ B, getCol b k ∉ A.map (fun r => getCol r k) →
      b ∈ outer_join A B k ∧ ∀ c, (∀ p ∈ b, p.1 ≠ c) → getCol b c = "") ∧
    (∀ v, v ∈ (left_join A B k).map (fun r => getCol r k) ↔
      v ∈ A.map (fun r => getCol r k)) := by
  refine ⟨?_, ?_, ?_, ?_, ?_⟩
  · rw [outer_join_map_key A B k hbnd]
    refine List.Nodup.append hand (hbnd.filter _) ?_
    intro v hv hv2
    rw [List.mem_filter, Bool.not_eq_true', contains_false_iff] at hv2
    exact hv2.2 hv
  · intro v
    rw [outer_join_map_key A B k hbnd]
    simp only [List.mem_append, List.mem_filter, Bool.not_eq_true', contains_false_iff]
    by_cases h1 : v ∈ A.map (fun r => getCol r k) <;>
      by_cases h2 : v ∈ B.map (fun r => getCol r k) <;> tauto
  · intro a ha hna
    have hes : B.filter (fun b => getCol b k == getCol a k) = [] := by
      rw [List.filter_eq_nil_iff]
      intro b hb hbeq
      exact hna ((by simpa using hbeq : getCol b k = getCol a k) ▸
        List.mem_map_of_mem _ hb)
    refine ⟨?_, fun c hc => getCol_no_entry a c hc⟩
    unfold outer_join left_join
    refine List.mem_append_left _ (List.mem_flatMap.mpr ⟨a, ha, ?_⟩)
    rw [hes]
    simp
  · intro b hb hnb
    refine ⟨?_, fun c hc => getCol_no_entry b c hc⟩
    unfold outer_join
    refine List.mem_append_right _ (List.mem_filter.mpr ⟨hb, ?_⟩)
    rw [Bool.not_eq_true', any_key_contains, contains_false_iff]
    exact hnb
  · intro v
    rw [left_join_map_key A B k hbnd]

/-- Witness for C4: one ProSAP-style row and one Mikro-style row with
distinct `Esle` keys. -/
theorem outer_join_complete_witness :
    (([[("Esle", "2024-01-01 - 9001"), ("UPB Tutarı", "100")]].map
        (fun r => getCol r "Esle")).Nodup ∧
      ([[("Esle", "2024-01-02 - 9002"), ("Vergili TUTAR", "70")]].map
        (fun r => getCol r "Esle")).Nodup) ∧
    (((outer_join [[("Esle", "2024-01-01 - 9001"), ("UPB Tutarı", "100")]]
        [[("Esle", "2024-01-02 - 9002"), ("Vergili TUTAR", "70")]] "Esle").map
          (fun r => getCol r "Esle")).Nodup ∧
    (∀ v, v ∈ (outer_join [[("Esle", "2024-01-01 - 9001"), ("UPB Tutarı", "100")]]
        [[("Esle", "2024-01-02 - 9002"), ("Vergili TUTAR", "70")]] "Esle").map
          (fun r => getCol r "Esle") ↔
      v ∈ [[("Esle", "2024-01-01 - 9001"), ("UPB Tutarı", "100")]].map
          (fun r => getCol r "Esle") ∨
      v ∈ [[("Esle", "2024-01-02 - 9002"), ("Vergili TUTAR", "70")]].map
          (fun r => getCol r "Esle")) ∧
    (∀ a ∈ [[("Esle", "2024-01-01 - 9001"), ("UPB Tutarı", "100")]],
      getCol a "Esle" ∉ [[("Esle", "2024-01-02 - 9002"), ("Vergili TUTAR", "70")]].map
          (fun r => getCol r "Esle") →
      a ∈ outer_join [[("Esle", "2024-01-01 - 9001"), ("UPB Tutarı", "100")]]
        [[("Esle", "2024-01-02 - 9002"), ("Vergili TUTAR", "70")]] "Esle" ∧
        ∀ c, (∀ p ∈ a, p.1 ≠ c) → getCol a c = "") ∧
    (∀ b ∈ [[("Esle", "2024-01-02 - 9002"), ("Vergili TUTAR", "70")]],
      getCol b "Esle" ∉ [[("Esle", "2024-01-01 - 9001"), ("UPB Tutarı", "100")]].map
          (fun r => getCol r "Esle") →
      b ∈ outer_join [[("Esle", "2024-01-01 - 9001"), ("UPB Tutarı", "100")]]
        [[("Esle", "2024-01-02 - 9002"), ("Vergili TUTAR", "70")]] "Esle" ∧
        ∀ c, (∀ p ∈ b, p.1 ≠ c) → getCol b c = "") ∧
    (∀ v, v ∈ (left_join [[("Esle", "2024-01-01 - 9001"), ("UPB Tutarı", "100")]]
        [[("Esle", "2024-01-02 - 9002"), ("Vergili TUTAR", "70")]] "Esle").map
          (fun r => getCol r "Esle") ↔
      v ∈ [[("Esle", "2024-01-01 - 9001"), ("UPB Tutarı", "100")]].map
          (fun r => getCol r "Esle"))) :=
  ⟨⟨by decide, by decide⟩,
    outer_join_complete [[("Esle", "2024-01-01 - 9001"), ("UPB Tutarı", "100")]]
      [[("Esle", "2024-01-02 - 9002"), ("Vergili TUTAR", "70")]] "Esle"
      (by decide) (by decide)⟩

/-- C6: the derived `Fazla` and `Ver` columns are the zero-floored values
of their signed expressions, and they are never both positive for the
same row. -/
theorem zero_floor_complementary (depo bekleyen plan borc : ℤ) :
    fazla_sutunu depo bekleyen plan borc = max 0 (depo + bekleyen + plan - borc) ∧
    ver_sutunu depo bekleyen plan borc = max 0 (borc - depo - bekleyen - plan) ∧
    ¬(0 < fazla_sutunu depo bekleyen plan borc ∧
      0 < ver_sutunu depo bekleyen plan borc) := by
  unfold fazla_sutunu ver_sutunu
  simp only
  by_cases h1 : depo + bekleyen + plan - borc > 0 <;>
    by_cases h2 : borc - depo - bekleyen - plan > 0 <;>
      simp only [h1, h2, if_true, if_false, if_pos, if_neg, not_false_iff] <;>
        omega

/-- C8: the zero-strip key rule keeps at least one character for every
input (`"0000"` → `"0"`), and the fixed-width-10 rule returns the first
10 characters (`"0007001318"` → `"0007001318"` fixed-width,
`"7001318"` zero-stripped). -/
theorem key_rules_zero_strip_and_fixed_width (s : String) :
    1 ≤ (malzeme_anahtari s).length ∧
    (sap_kodu s).data = s.data.take 10 ∧
    malzeme_anahtari "0000" = "0" ∧
    sap_kodu "0007001318" = "0007001318" ∧
    malzeme_anahtari "0007001318" = "7001318" := by
  refine ⟨?_, rfl, by decide, by decide, by decide⟩
  unfold malzeme_anahtari zfill
  by_cases h : 1 ≤ (lstrip_zeros s).length
  · rw [if_pos h]
    exact h
  · rw [if_neg h]
    show 1 ≤ (List.replicate (1 - (lstrip_zeros s).length) '0' ++
      (lstrip_zeros s).data).length
    have hd : (lstrip_zeros s).data.length = (lstrip_zeros s).length := rfl
    rw [List.length_append, List.length_replicate]
    omega

/-- C9: in the incremental-sync variant, a processed record survives
filtering iff its `BagKoduBekleyen` key is not among the existing codes,
the survivors keep their input order, and they are appended to the
persisted table leaving every existing row untouched. -/
theorem incremental_sync_append_only (processed : List Record) (existing : List String)
    (old : List Record) :
    (∀ r, r ∈ filter_new_records processed existing ↔
      r ∈ processed ∧ bag_kodu r ∉ existing) ∧
    (filter_new_records processed existing).Sublist processed ∧
    (save_to_sheets old processed).take old.length = old ∧
    (save_to_sheets old processed).drop old.length =
      filter_new_records processed (mevcut_kodlar old) := by
  refine ⟨?_, ?_, List.take_left old _, List.drop_left old _⟩
  · intro r
    unfold filter_new_records
    by_cases hc : (processed.isEmpty || existing.isEmpty) = true
    · rw [if_pos hc]
      rcases (by simpa using hc : processed.isEmpty = true ∨ existing.isEmpty = true)
        with h | h
      · rw [List.isEmpty_iff] at h
        subst h
        simp
      · rw [List.isEmpty_iff] at h
        subst h
        simp
    · rw [if_neg hc]
      simp [List.mem_filter, Bool.not_eq_true', contains_false_iff]
  · unfold filter_new_records
    by_cases hc : (processed.isEmpty || existing.isEmpty) = true
    · rw [if_pos hc]
    · rw [if_neg hc]
      exact List.filter_sublist processed

end PRGsheet
